import Mathlib

/-!
# Verification of the `inline-forms` Go package

A shallow embedding of the form types of the `inline-forms` repository
(package `form`): the `Custom`, `Menu` and `Modal` forms, the custom-form
elements (`Label`, `Input`, `Toggle`, `Slider`, `Dropdown`, `StepSlider`) and
the `Button` type, together with their `MarshalJSON` serialization and their
`submit` / `SubmitJSON` response-validation logic.

Modelling conventions:

* A decoded JSON response value (a Go `any` produced by `encoding/json` with
  `UseNumber`) is a `JsonValue`.  A `json.Number` is modelled as a rational
  `ℚ`: `Int64()` succeeds exactly when the rational is an integer in the
  signed 64-bit range, `Float64()` is modelled as total (rounding of decimal
  literals to binary floating point is idealized away; float values and the
  `Slider` bounds are modelled as rationals, which preserves the order used
  by the range comparisons).
* A Go callback field (`Submit func(...)`) is modelled by a `Bool` recording
  whether the field is non-nil, plus an `Event` trace: each function returns
  the list of callback invocations it performs, in the order the Go code
  performs them, and an `Option String` error (`none` = the Go method
  returned `nil`).
* Byte-level JSON decoding is external to the package (`encoding/json`);
  `SubmitJSON` is therefore modelled on the already-decoded value.  A `nil`
  `data []byte` argument is `none`, any other argument is `some v` for the
  decoded value `v`.  Decode failures for a concrete expected Go type (array,
  `uint`, `bool`) are the cases where `v` has the wrong shape; for the
  `bool` decode of `Modal.SubmitJSON` the documented `json.Unmarshal` no-op
  on the literal `null` (nil error, target left at its zero value) is
  modelled explicitly.
-/

namespace InlineForms

/-- A decoded JSON value, as produced by `encoding/json` decoding into `any`
with `UseNumber`: `nil`, `bool`, `json.Number` (modelled as `ℚ`), `string`,
`[]any` or `map[string]any` (fields listed in the key order `encoding/json`
marshals maps in, i.e. sorted). -/
inductive JsonValue where
  | null : JsonValue
  | bool (b : Bool) : JsonValue
  | num (q : ℚ) : JsonValue
  | str (s : String) : JsonValue
  | arr (elems : List JsonValue) : JsonValue
  | obj (fields : List (String × JsonValue)) : JsonValue

/-- A callback invocation performed while submitting a form: which Go
`Submit` closure was called, and with which arguments. -/
inductive Event where
  | inputSubmit (text : String) : Event
  | toggleSubmit (enabled : Bool) : Event
  | sliderSubmit (value : ℚ) : Event
  | dropdownSubmit (index : ℤ) (option : String) : Event
  | stepSliderSubmit (index : ℤ) (option : String) : Event
  | menuButtonSubmit (index : ℕ) : Event
  | modalButtonSubmit (top : Bool) : Event
  | formSubmit (closed : Bool) : Event
deriving DecidableEq

/-- The smallest signed 64-bit integer, `math.MinInt64`. -/
def int64Min : ℤ := -(2 ^ 63)

/-- The largest signed 64-bit integer, `math.MaxInt64`. -/
def int64Max : ℤ := 2 ^ 63 - 1

/-- The largest unsigned 64-bit integer, `math.MaxUint64`. -/
def uint64Max : ℤ := 2 ^ 64 - 1

/-- `json.Number.Int64()`: succeeds exactly when the number is an integer
that fits in a signed 64-bit integer. -/
def jsonNumberInt64 (q : ℚ) : Option ℤ :=
  if q.den = 1 ∧ int64Min ≤ q.num ∧ q.num ≤ int64Max then some q.num else none

/-- `Label` (custom-form element): a static box of text. -/
structure Label where
  text : String
deriving DecidableEq

/-- `Input`: a text input box.  `hasSubmit` records whether the Go `Submit`
callback field is non-nil. -/
structure Input where
  text : String
  default : String
  placeholder : String
  hasSubmit : Bool
deriving DecidableEq

/-- `Toggle`: an on-off button element. -/
structure Toggle where
  text : String
  default : Bool
  hasSubmit : Bool
deriving DecidableEq

/-- `Slider`: a slider element with a `Min`-`Max` range and a step size.
The `float64` fields are modelled as rationals. -/
structure Slider where
  text : String
  min : ℚ
  max : ℚ
  stepSize : ℚ
  default : ℚ
  hasSubmit : Bool

/-- `Dropdown`: a list of options of which the submitter selects one. -/
structure Dropdown where
  text : String
  options : List String
  defaultIndex : ℤ
  hasSubmit : Bool

/-- `type StepSlider Dropdown`: a distinct Go type with the same fields. -/
abbrev StepSlider := Dropdown

/-- `Button`: a button of a `Menu` or `Modal` form. -/
structure Button where
  text : String
  image : String
  hasSubmit : Bool
deriving DecidableEq

/-- `Label.submit`: always returns `nil` and calls nothing. -/
def Label.submit (_l : Label) (_value : JsonValue) : Except String (List Event) :=
  .ok []

/-- `Input.submit`: returns `nil` immediately when the callback is nil;
otherwise the value must be a string (the Go code also checks
`utf8.ValidString`, which always holds both for a Lean `String` and for any
string produced by `encoding/json` decoding, so that check is omitted). -/
def Input.submit (i : Input) (value : JsonValue) : Except String (List Event) :=
  if i.hasSubmit = false then .ok []
  else
    match value with
    | .str text => .ok [.inputSubmit text]
    | _ => .error "value is not allowed for input element"

/-- `Toggle.submit`: returns `nil` immediately when the callback is nil;
otherwise the value must be a bool. -/
def Toggle.submit (t : Toggle) (value : JsonValue) : Except String (List Event) :=
  if t.hasSubmit = false then .ok []
  else
    match value with
    | .bool enabled => .ok [.toggleSubmit enabled]
    | _ => .error "value is not allowed for toggle element"

/-- `Slider.submit`: returns `nil` immediately when the callback is nil;
otherwise the value must be a `json.Number` (whose `Float64()` is modelled
as total) and must lie within `[min, max]`. -/
def Slider.submit (s : Slider) (value : JsonValue) : Except String (List Event) :=
  if s.hasSubmit = false then .ok []
  else
    match value with
    | .num val =>
        if val < s.min ∨ val > s.max then
          .error "slider value is out of range"
        else .ok [.sliderSubmit val]
    | _ => .error "value is not allowed for toggle element"

/-- `Dropdown.submit`: returns `nil` immediately when the callback is nil;
otherwise the value must be a `json.Number` whose `Int64()` succeeds and
indexes into `options`. -/
def Dropdown.submit (d : Dropdown) (value : JsonValue) : Except String (List Event) :=
  if d.hasSubmit = false then .ok []
  else
    match value with
    | .num number =>
        match jsonNumberInt64 number with
        | none => .error "value is not allowed for dropdown element"
        | some val =>
            if val < 0 ∨ (d.options.length : ℤ) ≤ val then
              .error "dropdown value is out of range"
            else .ok [.dropdownSubmit val (d.options.getD val.toNat "")]
    | _ => .error "value is not allowed for dropdown element"

/-- `StepSlider.submit`: identical validation to `Dropdown.submit` (the Go
method body is a copy), invoking the step slider's own callback. -/
def StepSlider.submit (s : StepSlider) (value : JsonValue) : Except String (List Event) :=
  if Dropdown.hasSubmit s = false then .ok []
  else
    match value with
    | .num number =>
        match jsonNumberInt64 number with
        | none => .error "value is not allowed for step slider element"
        | some val =>
            if val < 0 ∨ ((Dropdown.options s).length : ℤ) ≤ val then
              .error "dropdown value is out of range"
            else .ok [.stepSliderSubmit val ((Dropdown.options s).getD val.toNat "")]
    | _ => .error "value is not allowed for step slider element"

/-- The `Element` interface of custom forms: any of the element types of the
package. -/
inductive Element where
  | label (l : Label) : Element
  | input (i : Input) : Element
  | toggle (t : Toggle) : Element
  | slider (s : Slider) : Element
  | dropdown (d : Dropdown) : Element
  | stepSlider (s : StepSlider) : Element

/-- Dynamic dispatch of `Element.submit` to the concrete element type. -/
def Element.submit : Element → JsonValue → Except String (List Event)
  | .label l, v => l.submit v
  | .input i, v => i.submit v
  | .toggle t, v => t.submit v
  | .slider s, v => s.submit v
  | .dropdown d, v => d.submit v
  | .stepSlider s, v => StepSlider.submit s v

/-- `true` exactly when a Go method modelled as `Except` returned a non-nil
error. -/
def isErr {α : Type} : Except String α → Bool
  | .error _ => true
  | .ok _ => false

/-- `true` exactly when `e.submit v` returns an error. -/
def failed (e : Element) (v : JsonValue) : Bool :=
  isErr (e.submit v)

/-- The callback invocations `e.submit v` performs (empty on error: every
element validates before invoking its callback). -/
def okEvents (e : Element) (v : JsonValue) : List Event :=
  match e.submit v with
  | .ok evs => evs
  | .error _ => []

/-- The `Custom` form: a titled list of elements.  `hasSubmit` records
whether the form-level `Submit` callback is non-nil. -/
structure Custom where
  title : String
  elements : List Element
  hasSubmit : Bool

/-- The element loop of `Custom.SubmitJSON`: submit each element with the
response value at the same position, stopping at the first error.  Returns
the callback invocations performed and the error, if any (the Go loop wraps
the element error with `error parsing form response value:`). -/
def runElements : List Element → List JsonValue → List Event × Option String
  | [], _ => ([], none)
  | _ :: _, [] => ([], none)
  | e :: es, v :: vs =>
      match e.submit v with
      | .error msg => ([], some ("error parsing form response value: " ++ msg))
      | .ok evs =>
          let rest := runElements es vs
          (evs ++ rest.1, rest.2)

/-- `Custom.SubmitJSON`: `nil` data means the form was closed; otherwise
the data must decode to a JSON array whose length equals the number of
elements, each element validates its value, and finally the form-level
callback is invoked with `closed = false`. -/
def Custom.SubmitJSON (f : Custom) (data : Option JsonValue) :
    List Event × Option String :=
  match data with
  | none => ((if f.hasSubmit then [Event.formSubmit true] else []), none)
  | some (.arr inputData) =>
      if f.elements.length ≠ inputData.length then
        ([], some "form JSON data array does not have enough values")
      else
        let r := runElements f.elements inputData
        match r.2 with
        | some msg => (r.1, some msg)
        | none =>
            (r.1 ++ (if f.hasSubmit then [Event.formSubmit false] else []), none)
  | some _ => ([], some "error decoding JSON data to slice")

/-- `Label.MarshalJSON`. -/
def Label.MarshalJSON (l : Label) : JsonValue :=
  .obj [("text", .str l.text), ("type", .str "label")]

/-- `Input.MarshalJSON`. -/
def Input.MarshalJSON (i : Input) : JsonValue :=
  .obj [("default", .str i.default), ("placeholder", .str i.placeholder),
        ("text", .str i.text), ("type", .str "input")]

/-- `Toggle.MarshalJSON`. -/
def Toggle.MarshalJSON (t : Toggle) : JsonValue :=
  .obj [("default", .bool t.default), ("text", .str t.text),
        ("type", .str "toggle")]

/-- `Slider.MarshalJSON`. -/
def Slider.MarshalJSON (s : Slider) : JsonValue :=
  .obj [("default", .num s.default), ("max", .num s.max), ("min", .num s.min),
        ("step", .num s.stepSize), ("text", .str s.text),
        ("type", .str "slider")]

/-- `Dropdown.MarshalJSON`. -/
def Dropdown.MarshalJSON (d : Dropdown) : JsonValue :=
  .obj [("default", .num (d.defaultIndex : ℚ)),
        ("options", .arr (d.options.map JsonValue.str)),
        ("text", .str d.text), ("type", .str "dropdown")]

/-- `StepSlider.MarshalJSON`. -/
def StepSlider.MarshalJSON (s : StepSlider) : JsonValue :=
  .obj [("default", .num (Dropdown.defaultIndex s : ℚ)),
        ("steps", .arr ((Dropdown.options s).map JsonValue.str)),
        ("text", .str (Dropdown.text s)), ("type", .str "step_slider")]

/-- Dynamic dispatch of `Element.MarshalJSON`. -/
def Element.MarshalJSON : Element → JsonValue
  | .label l => l.MarshalJSON
  | .input i => i.MarshalJSON
  | .toggle t => t.MarshalJSON
  | .slider s => s.MarshalJSON
  | .dropdown d => d.MarshalJSON
  | .stepSlider s => StepSlider.MarshalJSON s

/-- `Custom.MarshalJSON`: fails when the form has no elements, otherwise a
`custom_form` object (keys in the sorted order `encoding/json` uses for
maps). -/
def Custom.MarshalJSON (f : Custom) : Except String JsonValue :=
  if f.elements.length = 0 then
    .error "menu form requires at least one element"
  else
    .ok (.obj [("content", .arr (f.elements.map Element.MarshalJSON)),
               ("title", .str f.title), ("type", .str "custom_form")])

/-- `Button.MarshalJSON`: the `image` key is present only when `Image` is
non-empty, with type `url` for `http:`/`https:` images and `path`
otherwise. -/
def Button.MarshalJSON (b : Button) : JsonValue :=
  if b.image = "" then .obj [("text", .str b.text)]
  else
    let buttonType :=
      if b.image.startsWith "http:" ∨ b.image.startsWith "https:" then "url"
      else "path"
    .obj [("image", .obj [("data", .str b.image), ("type", .str buttonType)]),
          ("text", .str b.text)]

/-- The `MenuElement` interface of `Menu` forms.  `Button` is the only
clickable element and is defined in this repository; `Header`, `Label` and
`Divider` are the remaining cases.  Modelled from the spec: the source files
declaring the `MenuElement` interface and the non-button menu elements are
not part of the given sources, only `menu.go`'s doc comment ("These elements
currently include Header, Label, Divider and Button") describes them, so
their JSON shapes here are nominal; no claim depends on them. -/
inductive MenuElement where
  | button (b : Button) : MenuElement
  | header (text : String) : MenuElement
  | label (text : String) : MenuElement
  | divider : MenuElement
deriving DecidableEq

/-- Serialization of a `MenuElement` (`Button` from the source; the others
modelled from the spec, see `MenuElement`). -/
def MenuElement.MarshalJSON : MenuElement → JsonValue
  | .button b => b.MarshalJSON
  | .header t => .obj [("text", .str t), ("type", .str "header")]
  | .label t => .obj [("text", .str t), ("type", .str "label")]
  | .divider => .obj [("type", .str "divider")]

/-- The `Button` case of a `MenuElement`, if it is one (the type assertion
`element.(Button)` of `Menu.MarshalJSON`). -/
def MenuElement.asButton : MenuElement → Option Button
  | .button b => some b
  | _ => none

/-- The `Menu` form (`menu.go`): a titled list of menu elements.  `buttons`
is the unexported cache of the buttons among `elements`, populated by
`MarshalJSON` and read by `SubmitJSON`. -/
structure Menu where
  title : String
  content : String
  elements : List MenuElement
  hasSubmit : Bool
  buttons : List Button
deriving DecidableEq

/-- Decoding `json.Unmarshal(data, &index)` for `var index uint`: succeeds
exactly on a JSON number that is an integer in the unsigned 64-bit range. -/
def decodeUintIndex : JsonValue → Option ℕ
  | .num q => if q.den = 1 ∧ 0 ≤ q.num ∧ q.num ≤ uint64Max then some q.num.toNat else none
  | _ => none

/-- `Menu.SubmitJSON`: `nil` data means the form was closed; otherwise the
data must decode as a `uint` button index strictly below the number of
cached buttons; the clicked button's callback runs before the form-level
callback. -/
def Menu.SubmitJSON (m : Menu) (data : Option JsonValue) :
    List Event × Option String :=
  match data with
  | none => ((if m.hasSubmit then [Event.formSubmit true] else []), none)
  | some v =>
      match decodeUintIndex v with
      | none => ([], some "cannot parse button index as int")
      | some index =>
          if m.buttons.length ≤ index then
            ([], some "button index points to invalid button")
          else
            ((if (m.buttons.getD index ⟨"", "", false⟩).hasSubmit then
                [Event.menuButtonSubmit index] else []) ++
              (if m.hasSubmit then [Event.formSubmit false] else []), none)

/-- `Menu.MarshalJSON`: repopulates the receiver's `buttons` cache from the
buttons among `elements`, then serializes (it returns the updated receiver
together with the serialized object, modelling the Go pointer-receiver
mutation `form.buttons = ...`). -/
def Menu.MarshalJSON (m : Menu) : Menu × Except String JsonValue :=
  let m' := { m with buttons := m.elements.filterMap MenuElement.asButton }
  (m', .ok (.obj [("content", .str m.content),
                  ("elements", .arr (m.elements.map MenuElement.MarshalJSON)),
                  ("title", .str m.title), ("type", .str "form")]))

/-- The `Modal` form (`modal.go`): two buttons, of which the client reports
the clicked one as a JSON bool (`true` = `Button1`). -/
structure Modal where
  title : String
  content : String
  button1 : Button
  button2 : Button
  hasSubmit : Bool
deriving DecidableEq

/-- `Modal.SubmitJSON`: `nil` data means the form was closed; otherwise
the data is decoded as a JSON bool selecting `Button1` (`true`) or
`Button2` (`false`); the clicked button's callback runs before the
form-level callback.  `json.Unmarshal` of the JSON literal `null` into a
Go `bool` is a documented no-op returning a nil error, so on `null` the
variable keeps its zero value `false` and `Button2` is dispatched without
error. -/
def Modal.SubmitJSON (f : Modal) (data : Option JsonValue) :
    List Event × Option String :=
  match data with
  | none => ((if f.hasSubmit then [Event.formSubmit true] else []), none)
  | some (.bool value) =>
      let button := if value then f.button1 else f.button2
      ((if button.hasSubmit then [Event.modalButtonSubmit value] else []) ++
        (if f.hasSubmit then [Event.formSubmit false] else []), none)
  | some .null =>
      ((if f.button2.hasSubmit then [Event.modalButtonSubmit false] else []) ++
        (if f.hasSubmit then [Event.formSubmit false] else []), none)
  | some _ => ([], some "error parsing JSON as bool")

/-- `Modal.MarshalJSON`. -/
def Modal.MarshalJSON (f : Modal) : Except String JsonValue :=
  .ok (.obj [("button1", .str f.button1.text), ("button2", .str f.button2.text),
             ("content", .str f.content), ("title", .str f.title),
             ("type", .str "modal")])

/-- The keys of a JSON object value. -/
def JsonValue.objKeys : JsonValue → Option (List String)
  | .obj fields => some (fields.map Prod.fst)
  | _ => none

/-- Lookup of a key in a JSON object value. -/
def JsonValue.objGet : JsonValue → String → Option JsonValue
  | .obj fields, k => (fields.find? (fun p => p.1 == k)).map Prod.snd
  | _, _ => none

/-- Whether the element's Go `Submit` callback field is non-nil (`Label`
has no callback field at all, which counts as nil). -/
def Element.hasSubmitCallback : Element → Bool
  | .label _ => false
  | .input i => i.hasSubmit
  | .toggle t => t.hasSubmit
  | .slider s => s.hasSubmit
  | .dropdown d => d.hasSubmit
  | .stepSlider s => Dropdown.hasSubmit s

/-- Spec-side wrongness predicate for a decoded response value, following
the claim's words: the value has the wrong JSON type for the element
(string for `Input`, bool for `Toggle`, number for `Slider`, integer for
`Dropdown`/`StepSlider`), or it is a number outside the element's permitted
range (`[Min, Max]` for a `Slider`, `[0, len(Options))` for a `Dropdown` or
`StepSlider`).  A `Label` admits any value. -/
def specWrongValue : Element → JsonValue → Bool
  | .label _, _ => false
  | .input _, v => match v with | .str _ => false | _ => true
  | .toggle _, v => match v with | .bool _ => false | _ => true
  | .slider s, v =>
      match v with
      | .num q => decide (q < s.min) || decide (s.max < q)
      | _ => true
  | .dropdown d, v =>
      match v with
      | .num q => !(decide (q.den = 1) && decide (0 ≤ q.num) &&
                    decide (q.num < (d.options.length : ℤ)))
      | _ => true
  | .stepSlider s, v =>
      match v with
      | .num q => !(decide (q.den = 1) && decide (0 ≤ q.num) &&
                    decide (q.num < ((Dropdown.options s).length : ℤ)))
      | _ => true

/-! ## Theorems -/

/-- C9: for every form type (`Menu`, `Custom`, `Modal`), `SubmitJSON` with
nil data returns no error and its only callback invocation is the form's
`Submit` with `closed = true`, performed exactly when that callback is
non-nil; no button or element callback is invoked. -/
theorem nil_data_closes_all_forms (m : Menu) (c : Custom) (f : Modal) :
    m.SubmitJSON none =
      ((if m.hasSubmit then [Event.formSubmit true] else []), none) ∧
    c.SubmitJSON none =
      ((if c.hasSubmit then [Event.formSubmit true] else []), none) ∧
    f.SubmitJSON none =
      ((if f.hasSubmit then [Event.formSubmit true] else []), none) :=
  ⟨rfl, rfl, rfl⟩

/-- C10: `Custom.SubmitJSON` returns an error whenever the decoded response
array's length differs from the number of elements, in either direction, and
invokes no callback in that case. -/
theorem Custom_SubmitJSON_length_mismatch (c : Custom) (xs : List JsonValue)
    (h : c.elements.length ≠ xs.length) :
    c.SubmitJSON (some (.arr xs)) =
      ([], some "form JSON data array does not have enough values") := by
  simp [Custom.SubmitJSON, h]

/-- Witness for `Custom_SubmitJSON_length_mismatch`: a one-element form
rejects an empty response array, and an empty form rejects a one-value
response array. -/
theorem Custom_SubmitJSON_length_mismatch_witness :
    Custom.SubmitJSON ⟨"t", [Element.toggle ⟨"", false, true⟩], true⟩
        (some (.arr [])) =
      ([], some "form JSON data array does not have enough values") ∧
    Custom.SubmitJSON ⟨"t", [], true⟩ (some (.arr [.bool true])) =
      ([], some "form JSON data array does not have enough values") :=
  ⟨Custom_SubmitJSON_length_mismatch _ _ (by decide),
   Custom_SubmitJSON_length_mismatch _ _ (by decide)⟩

/-- C7 counterexample: `json.Unmarshal` of the JSON literal `null` into a
Go `bool` is a documented no-op returning a nil error, so on the non-boolean
response `null` a concrete `Modal.SubmitJSON` returns no error, dispatches
`Button2` (the zero value `false` is kept) and invokes the form callback —
refuting "returns an error if and only if the data is not a valid JSON
boolean". -/
theorem Modal_SubmitJSON_null_accepted :
    Modal.SubmitJSON ⟨"", "", ⟨"y", "", false⟩, ⟨"n", "", true⟩, true⟩
        (some .null) =
      ([Event.modalButtonSubmit false, Event.formSubmit false], none) ∧
    (∀ b, JsonValue.null ≠ JsonValue.bool b) :=
  ⟨rfl, fun _ h => JsonValue.noConfusion h⟩

/-- C7 (amended): `Modal.SubmitJSON` on non-nil data returns an error
exactly when the decoded value is neither a JSON boolean nor the JSON
literal `null` (which `json.Unmarshal` leaves as the zero value `false`
without error); on `true` it invokes `Button1`'s callback, on `false` or
`null` `Button2`'s (when non-nil), followed in every no-error case by the
form's `Submit` with `closed = false` (when non-nil). -/
theorem Modal_SubmitJSON_bool_dispatch (f : Modal) (v : JsonValue) :
    ((f.SubmitJSON (some v)).2.isSome = true ↔
      (v ≠ .null ∧ ∀ b, v ≠ .bool b)) ∧
    (∀ b, v = .bool b →
        f.SubmitJSON (some v) =
          ((if (if b then f.button1 else f.button2).hasSubmit then
              [Event.modalButtonSubmit b] else []) ++
            (if f.hasSubmit then [Event.formSubmit false] else []), none)) ∧
    (v = .null →
        f.SubmitJSON (some v) =
          ((if f.button2.hasSubmit then [Event.modalButtonSubmit false]
            else []) ++
            (if f.hasSubmit then [Event.formSubmit false] else []), none)) := by
  cases v <;> simp [Modal.SubmitJSON]

/-- Witness for `Modal_SubmitJSON_bool_dispatch`: clicking the top button of
a concrete modal runs that button's callback and then the form callback. -/
theorem Modal_SubmitJSON_bool_dispatch_witness :
    Modal.SubmitJSON ⟨"", "", ⟨"y", "", true⟩, ⟨"n", "", false⟩, true⟩
        (some (.bool true)) =
      ([Event.modalButtonSubmit true, Event.formSubmit false], none) := by
  have h :=
    (Modal_SubmitJSON_bool_dispatch
      ⟨"", "", ⟨"y", "", true⟩, ⟨"n", "", false⟩, true⟩ (.bool true)).2.1
      true rfl
  simpa using h

/-- C6: `Menu.SubmitJSON` never reads past the end of the cached button
slice: a button callback is invoked only at an index strictly below the
number of buttons, and every decoded index at or above that number yields an
error. -/
theorem Menu_SubmitJSON_index_bounds (m : Menu) (v : JsonValue) :
    (∀ i, Event.menuButtonSubmit i ∈ (m.SubmitJSON (some v)).1 →
        i < m.buttons.length) ∧
    (∀ i, decodeUintIndex v = some i → m.buttons.length ≤ i →
        (m.SubmitJSON (some v)).2.isSome = true) := by
  cases h : decodeUintIndex v with
  | none =>
      constructor
      · intro i hi
        simp [Menu.SubmitJSON, h] at hi
      · intro i hsome
        cases hsome
  | some j =>
      constructor
      · intro i hi
        simp only [Menu.SubmitJSON, h] at hi
        by_cases hj : m.buttons.length ≤ j
        · simp [hj] at hi
        · simp only [if_neg hj, List.mem_append] at hi
          rcases hi with hi | hi
          · split at hi
            · simp at hi
              subst hi
              exact Nat.lt_of_not_le hj
            · simp at hi
          · split at hi <;> simp at hi
      · intro i hsome hlen
        injection hsome with hji
        subst hji
        simp [Menu.SubmitJSON, h, hlen]

/-- Witness for `Menu_SubmitJSON_index_bounds`: a concrete menu with one
cached button rejects index `1`. -/
theorem Menu_SubmitJSON_index_bounds_witness :
    ((Menu.SubmitJSON ⟨"", "", [], true, [⟨"b", "", true⟩]⟩
        (some (.num 1))).2.isSome = true) :=
  (Menu_SubmitJSON_index_bounds ⟨"", "", [], true, [⟨"b", "", true⟩]⟩
      (.num 1)).2 1 rfl (by decide)

/-- C3: for a `Slider` with a non-nil callback, `submit` returns an error
exactly when the value is not a JSON number or lies strictly below `Min` or
strictly above `Max`; otherwise it invokes the callback with the value and
returns nil.  No constraint involves `StepSize`: the statement holds for
every `stepSize`, which is not mentioned. -/
theorem Slider_submit_range (s : Slider) (v : JsonValue)
    (hcb : s.hasSubmit = true) :
    (isErr (s.submit v) = true ↔
      ¬ ∃ q, v = .num q ∧ s.min ≤ q ∧ q ≤ s.max) ∧
    (∀ q, v = .num q → s.min ≤ q → q ≤ s.max →
      s.submit v = .ok [Event.sliderSubmit q]) := by
  cases v
  case num q =>
    have hs : s.submit (.num q) =
        if q < s.min ∨ q > s.max then .error "slider value is out of range"
        else .ok [Event.sliderSubmit q] := by
      simp [Slider.submit, hcb]
    by_cases hq : q < s.min ∨ q > s.max
    · rw [hs, if_pos hq]
      refine ⟨iff_of_true rfl ?_, ?_⟩
      · rintro ⟨r, hr, h1, h2⟩
        injection hr with hqr
        subst hqr
        rcases hq with hq | hq
        · exact absurd h1 (not_le.mpr hq)
        · exact absurd h2 (not_le.mpr hq)
      · intro r hr h1 h2
        injection hr with hqr
        subst hqr
        rcases hq with hq | hq
        · exact absurd h1 (not_le.mpr hq)
        · exact absurd h2 (not_le.mpr hq)
    · rw [hs, if_neg hq]
      push_neg at hq
      refine ⟨iff_of_false (by simp [isErr]) ?_, ?_⟩
      · exact fun hne => hne ⟨q, rfl, hq.1, hq.2⟩
      · intro r hr _ _
        injection hr with hqr
        subst hqr
        rfl
  all_goals
    refine ⟨iff_of_true (by simp [Slider.submit, hcb, isErr]) ?_, ?_⟩ <;>
      first
        | (rintro ⟨q, hq, -, -⟩; simp at hq)
        | (intro q hq; simp at hq)

/-- Witness for `Slider_submit_range`: a concrete in-range submission
invokes the callback, and an out-of-range value is an error. -/
theorem Slider_submit_range_witness :
    Slider.submit ⟨"", 0, 10, 1, 0, true⟩ (.num 5) =
      .ok [Event.sliderSubmit 5] ∧
    isErr (Slider.submit ⟨"", 0, 10, 1, 0, true⟩ (.num 11)) = true :=
  ⟨(Slider_submit_range ⟨"", 0, 10, 1, 0, true⟩ (.num 5) rfl).2 5 rfl
      (by norm_num) (by norm_num),
   (Slider_submit_range ⟨"", 0, 10, 1, 0, true⟩ (.num 11) rfl).1.mpr
      (by
        rintro ⟨q, hq, h1, h2⟩
        injection hq with hq
        subst hq
        norm_num at h2)⟩

/-- C1 counterexample: an `Input` element whose `Submit` callback is nil
returns no error on a boolean response value, although a boolean is the
wrong JSON type for an input element — so the claim fails for the nil
configuration of the callback field. -/
theorem Input_nil_callback_accepts_bool :
    Element.submit (.input ⟨"", "", "", false⟩) (.bool true) = .ok [] ∧
    specWrongValue (.input ⟨"", "", "", false⟩) (.bool true) = true :=
  ⟨rfl, rfl⟩

/-- C1 (amended): for every custom-form element whose `Submit` callback is
non-nil, `submit` returns an error whenever the decoded value's type or
range is wrong for that element; with a nil callback, `submit` returns nil
without validating. -/
theorem element_submit_rejects_wrong (e : Element) (v : JsonValue)
    (hcb : e.hasSubmitCallback = true) (hw : specWrongValue e v = true) :
    failed e v = true := by
  cases e with
  | label l => simp [specWrongValue] at hw
  | input i =>
      have hcb' : i.hasSubmit = true := hcb
      cases v <;>
        simp_all [specWrongValue, failed, Element.submit, Input.submit, isErr]
  | toggle t =>
      have hcb' : t.hasSubmit = true := hcb
      cases v <;>
        simp_all [specWrongValue, failed, Element.submit, Toggle.submit, isErr]
  | slider s =>
      have hcb' : s.hasSubmit = true := hcb
      cases v with
      | num q =>
          simp only [specWrongValue, Bool.or_eq_true, decide_eq_true_eq] at hw
          simp [failed, Element.submit, Slider.submit, hcb', hw, isErr]
      | null => simp [failed, Element.submit, Slider.submit, hcb', isErr]
      | bool b => simp [failed, Element.submit, Slider.submit, hcb', isErr]
      | str t => simp [failed, Element.submit, Slider.submit, hcb', isErr]
      | arr xs => simp [failed, Element.submit, Slider.submit, hcb', isErr]
      | obj fs => simp [failed, Element.submit, Slider.submit, hcb', isErr]
  | dropdown d =>
      have hcb' : d.hasSubmit = true := hcb
      cases v with
      | num q =>
          have hw' : (¬q.den = 1 ∨ q < 0) ∨ (d.options.length : ℤ) ≤ q.num := by
            simpa [specWrongValue, and_assoc] using hw
          cases hjn : jsonNumberInt64 q with
          | none =>
              simp [failed, Element.submit, Dropdown.submit, hcb', hjn, isErr]
          | some n =>
              have hden : q.den = 1 ∧ n = q.num := by
                by_cases hc : q.den = 1 ∧ int64Min ≤ q.num ∧ q.num ≤ int64Max
                · refine ⟨hc.1, ?_⟩
                  simp [jsonNumberInt64, hc] at hjn
                  exact hjn.symm
                · simp [jsonNumberInt64, hc] at hjn
              have hor : n < 0 ∨ (d.options.length : ℤ) ≤ n := by
                rcases hden with ⟨h1, hn⟩
                subst hn
                rcases hw' with (h | h) | h
                · exact absurd h1 h
                · left
                  by_contra hc
                  push_neg at hc
                  exact absurd (Rat.num_nonneg.mp hc) (not_le.mpr h)
                · right
                  exact h
              simp [failed, Element.submit, Dropdown.submit, hcb', hjn, hor,
                isErr]
      | null => simp [failed, Element.submit, Dropdown.submit, hcb', isErr]
      | bool b => simp [failed, Element.submit, Dropdown.submit, hcb', isErr]
      | str t => simp [failed, Element.submit, Dropdown.submit, hcb', isErr]
      | arr xs => simp [failed, Element.submit, Dropdown.submit, hcb', isErr]
      | obj fs => simp [failed, Element.submit, Dropdown.submit, hcb', isErr]
  | stepSlider s =>
      have hcb' : Dropdown.hasSubmit s = true := hcb
      cases v with
      | num q =>
          have hw' : (¬q.den = 1 ∨ q < 0) ∨
              ((Dropdown.options s).length : ℤ) ≤ q.num := by
            simpa [specWrongValue, and_assoc] using hw
          cases hjn : jsonNumberInt64 q with
          | none =>
              simp [failed, Element.submit, StepSlider.submit, hcb', hjn, isErr]
          | some n =>
              have hden : q.den = 1 ∧ n = q.num := by
                by_cases hc : q.den = 1 ∧ int64Min ≤ q.num ∧ q.num ≤ int64Max
                · refine ⟨hc.1, ?_⟩
                  simp [jsonNumberInt64, hc] at hjn
                  exact hjn.symm
                · simp [jsonNumberInt64, hc] at hjn
              have hor : n < 0 ∨ ((Dropdown.options s).length : ℤ) ≤ n := by
                rcases hden with ⟨h1, hn⟩
                subst hn
                rcases hw' with (h | h) | h
                · exact absurd h1 h
                · left
                  by_contra hc
                  push_neg at hc
                  exact absurd (Rat.num_nonneg.mp hc) (not_le.mpr h)
                · right
                  exact h
              simp [failed, Element.submit, StepSlider.submit, hcb', hjn, hor,
                isErr]
      | null => simp [failed, Element.submit, StepSlider.submit, hcb', isErr]
      | bool b => simp [failed, Element.submit, StepSlider.submit, hcb', isErr]
      | str t => simp [failed, Element.submit, StepSlider.submit, hcb', isErr]
      | arr xs => simp [failed, Element.submit, StepSlider.submit, hcb', isErr]
      | obj fs => simp [failed, Element.submit, StepSlider.submit, hcb', isErr]

/-- Witness for `element_submit_rejects_wrong`: a dropdown with one option
and a non-nil callback rejects the out-of-range index `5`. -/
theorem element_submit_rejects_wrong_witness :
    failed (.dropdown ⟨"", ["a"], 0, true⟩) (.num 5) = true :=
  element_submit_rejects_wrong (.dropdown ⟨"", ["a"], 0, true⟩) (.num 5)
    rfl (by decide)

/-- C2: for a `Dropdown` (and a `StepSlider`) with a non-nil callback,
`submit` returns an error exactly when the value is not a JSON integer or
the integer is below `0` or at least `len(Options)`; otherwise it invokes
the callback with the index and the option string at that index in
`Options`, and returns nil.  The hypothesis `hlen` records that every Go
slice length fits in a signed 64-bit integer. -/
theorem Dropdown_StepSlider_submit_index (d : Dropdown) (v : JsonValue)
    (hcb : d.hasSubmit = true)
    (hlen : (d.options.length : ℤ) ≤ int64Max) :
    (isErr (d.submit v) = true ↔
      ¬ ∃ q, v = .num q ∧ q.den = 1 ∧ 0 ≤ q.num ∧
        q.num < (d.options.length : ℤ)) ∧
    (isErr (StepSlider.submit d v) = isErr (d.submit v)) ∧
    (∀ q, v = .num q → q.den = 1 → 0 ≤ q.num →
      q.num < (d.options.length : ℤ) →
      ∃ hq : q.num.toNat < d.options.length,
        d.submit v = .ok [Event.dropdownSubmit q.num
          (d.options.get ⟨q.num.toNat, hq⟩)] ∧
        StepSlider.submit d v = .ok [Event.stepSliderSubmit q.num
          (d.options.get ⟨q.num.toNat, hq⟩)]) := by
  cases v
  case num q =>
    by_cases hc : q.den = 1 ∧ int64Min ≤ q.num ∧ q.num ≤ int64Max
    · have hjn : jsonNumberInt64 q = some q.num := by
        simp [jsonNumberInt64, hc]
      have hd : Dropdown.submit d (.num q) =
          if q.num < 0 ∨ (d.options.length : ℤ) ≤ q.num then
            .error "dropdown value is out of range"
          else
            .ok [.dropdownSubmit q.num (d.options.getD q.num.toNat "")] := by
        simp [Dropdown.submit, hcb, hjn]
      have hs : StepSlider.submit d (.num q) =
          if q.num < 0 ∨ (d.options.length : ℤ) ≤ q.num then
            .error "dropdown value is out of range"
          else
            .ok [.stepSliderSubmit q.num (d.options.getD q.num.toNat "")] := by
        simp [StepSlider.submit, hcb, hjn]
      by_cases hrange : q.num < 0 ∨ (d.options.length : ℤ) ≤ q.num
      · simp only [hd, hs, if_pos hrange]
        refine ⟨iff_of_true rfl ?_, by trivial, ?_⟩
        · rintro ⟨r, hr, -, h0, hlt⟩
          injection hr with hqr
          subst hqr
          omega
        · intro r hr hden h0 hlt
          injection hr with hqr
          subst hqr
          omega
      · simp only [hd, hs, if_neg hrange]
        push_neg at hrange
        have hq : q.num.toNat < d.options.length := by omega
        have hget : d.options.getD q.num.toNat "" =
            d.options.get ⟨q.num.toNat, hq⟩ :=
          (List.getD_eq_getElem _ _ hq).trans
            (List.get_eq_getElem d.options ⟨q.num.toNat, hq⟩).symm
        refine ⟨iff_of_false (by simp [isErr]) ?_, by trivial, ?_⟩
        · exact fun hne => hne ⟨q, rfl, hc.1, hrange.1, hrange.2⟩
        · intro r hr hden h0 hlt
          injection hr with hqr
          subst hqr
          rw [hget]
          exact ⟨hq, rfl, rfl⟩
    · have hjn : jsonNumberInt64 q = none := by
        simp only [jsonNumberInt64, if_neg hc]
      have hd : Dropdown.submit d (.num q) =
          .error "value is not allowed for dropdown element" := by
        simp [Dropdown.submit, hcb, hjn]
      have hs : StepSlider.submit d (.num q) =
          .error "value is not allowed for step slider element" := by
        simp [StepSlider.submit, hcb, hjn]
      simp only [hd, hs]
      refine ⟨iff_of_true rfl ?_, by trivial, ?_⟩
      · rintro ⟨r, hr, hden, h0, hlt⟩
        injection hr with hqr
        subst hqr
        apply hc
        refine ⟨hden, ?_, ?_⟩ <;> simp only [int64Min, int64Max] at * <;> omega
      · intro r hr hden h0 hlt
        injection hr with hqr
        subst hqr
        exfalso
        apply hc
        refine ⟨hden, ?_, ?_⟩ <;> simp only [int64Min, int64Max] at * <;> omega
  all_goals
    refine ⟨iff_of_true (by simp [Dropdown.submit, hcb, isErr]) ?_, ?_, ?_⟩
    · rintro ⟨q, hq, -, -, -⟩
      simp at hq
    · simp [Dropdown.submit, StepSlider.submit, hcb, isErr]
    · intro q hq
      simp at hq

/-- Witness for `Dropdown_StepSlider_submit_index`: a two-option dropdown
accepts index `1` and invokes the callback with the second option. -/
theorem Dropdown_StepSlider_submit_index_witness :
    Dropdown.submit ⟨"", ["a", "b"], 0, true⟩ (.num 1) =
      .ok [Event.dropdownSubmit 1 "b"] := by
  have h :=
    ((Dropdown_StepSlider_submit_index ⟨"", ["a", "b"], 0, true⟩ (.num 1)
        rfl (by decide)).2.2 1 rfl (by decide) (by decide) (by decide))
  rcases h with ⟨hq, h1, -⟩
  simpa using h1

/-- C4 counterexample: a `Custom` form with no elements is rejected by
`Custom.MarshalJSON`, so `MarshalJSON` does not succeed for every `Custom`
value. -/
theorem Custom_MarshalJSON_empty_fails :
    Custom.MarshalJSON ⟨"", [], false⟩ =
      .error "menu form requires at least one element" :=
  rfl

/-- C4 (amended): `Menu.MarshalJSON` and `Modal.MarshalJSON` always succeed,
and `Custom.MarshalJSON` succeeds exactly when the form has at least one
element; each success is a JSON object whose `type` field is respectively
`form`, `custom_form` and `modal`, with a fixed set of keys determined only
by the form type. -/
theorem MarshalJSON_fixed_shape (m : Menu) (c : Custom) (f : Modal) :
    (∃ j, (m.MarshalJSON).2 = .ok j ∧
      j.objKeys = some ["content", "elements", "title", "type"] ∧
      j.objGet "type" = some (.str "form")) ∧
    (isErr c.MarshalJSON = true ↔ c.elements = []) ∧
    (∀ j, c.MarshalJSON = .ok j →
      j.objKeys = some ["content", "title", "type"] ∧
      j.objGet "type" = some (.str "custom_form")) ∧
    (∃ j, f.MarshalJSON = .ok j ∧
      j.objKeys = some ["button1", "button2", "content", "title", "type"] ∧
      j.objGet "type" = some (.str "modal")) := by
  refine ⟨⟨_, rfl, rfl, rfl⟩, ?_, ?_, ⟨_, rfl, rfl, rfl⟩⟩
  · by_cases hc : c.elements.length = 0
    · rw [List.length_eq_zero] at hc
      simp [Custom.MarshalJSON, hc, isErr]
    · have hc' : ¬ c.elements = [] := fun he => hc (by simp [he])
      simp [Custom.MarshalJSON, hc, isErr, hc']
  · intro j hj
    by_cases hc : c.elements.length = 0
    · simp [Custom.MarshalJSON, hc] at hj
    · simp only [Custom.MarshalJSON, if_neg hc] at hj
      injection hj with hj
      subst hj
      exact ⟨rfl, rfl⟩

/-- Witness for `MarshalJSON_fixed_shape`: shapes of a concrete menu, a
concrete one-element custom form and a concrete modal. -/
theorem MarshalJSON_fixed_shape_witness :
    (Custom.MarshalJSON ⟨"t", [.label ⟨"hi"⟩], false⟩ =
      .ok (.obj [("content", .arr [.obj [("text", .str "hi"),
                    ("type", .str "label")]]),
                 ("title", .str "t"), ("type", .str "custom_form")])) ∧
    ((Custom.MarshalJSON ⟨"t", [.label ⟨"hi"⟩], false⟩).map
        JsonValue.objKeys =
      .ok (some ["content", "title", "type"])) := by
  have h := (MarshalJSON_fixed_shape ⟨"", "", [], false, []⟩
      ⟨"t", [.label ⟨"hi"⟩], false⟩
      ⟨"", "", ⟨"", "", false⟩, ⟨"", "", false⟩, false⟩).2.2.1
      (.obj [("content", .arr [.obj [("text", .str "hi"),
                ("type", .str "label")]]),
             ("title", .str "t"), ("type", .str "custom_form")]) rfl
  exact ⟨rfl, by rw [show Custom.MarshalJSON ⟨"t", [.label ⟨"hi"⟩], false⟩ =
    .ok (.obj [("content", .arr [.obj [("text", .str "hi"),
                  ("type", .str "label")]]),
               ("title", .str "t"), ("type", .str "custom_form")]) from rfl,
    Except.map]; exact congrArg Except.ok h.1⟩

/-- C8 counterexample: `Menu.MarshalJSON` does not leave every field of its
receiver unchanged: marshalling a menu holding one `Button` element but an
empty `buttons` cache repopulates the cache. -/
theorem Menu_MarshalJSON_mutates_buttons :
    ((Menu.MarshalJSON ⟨"", "", [.button ⟨"b", "", false⟩], false, []⟩).1 ≠
      ⟨"", "", [.button ⟨"b", "", false⟩], false, []⟩) := by
  intro h
  have hb := congrArg Menu.buttons h
  simp [Menu.MarshalJSON, MenuElement.asButton] at hb

/-- C8 (amended): `Menu.MarshalJSON`'s only side effect on its receiver is
to rewrite the unexported `buttons` cache with the buttons occurring in
`Elements` (in order); `Title`, `Content`, `Elements` and `Submit` are left
unchanged.  `Custom.MarshalJSON` and `Modal.MarshalJSON` write no field of
their receivers (they are modelled as pure functions of the form value). -/
theorem Menu_MarshalJSON_frame (m : Menu) :
    ((m.MarshalJSON).1.title = m.title ∧
     (m.MarshalJSON).1.content = m.content ∧
     (m.MarshalJSON).1.elements = m.elements ∧
     (m.MarshalJSON).1.hasSubmit = m.hasSubmit) ∧
    (m.MarshalJSON).1.buttons = m.elements.filterMap MenuElement.asButton :=
  ⟨⟨rfl, rfl, rfl, rfl⟩, rfl⟩

/-- Every element validates its value before invoking its callback, and no
element invokes the form-level callback: a successful `submit` never emits a
`formSubmit` event. -/
theorem element_ok_no_formSubmit (e : Element) (v : JsonValue)
    (evs : List Event) (b : Bool) (h : e.submit v = .ok evs) :
    Event.formSubmit b ∉ evs := by
  cases e <;>
    simp only [Element.submit, Label.submit, Input.submit, Toggle.submit,
      Slider.submit, Dropdown.submit, StepSlider.submit] at h <;>
    repeat' split at h
  all_goals
    first
      | (injection h with h)
      | skip
  all_goals
    first
      | (subst h; simp)
      | simp at h

/-- The element loop succeeds exactly when every element accepts the value
at its position. -/
theorem runElements_error_iff (es : List Element) (vs : List JsonValue) :
    (runElements es vs).2 = none ↔
      ∀ p ∈ es.zip vs, failed p.1 p.2 = false := by
  induction es generalizing vs with
  | nil => simp [runElements]
  | cons e es ih =>
      cases vs with
      | nil => simp [runElements]
      | cons v vs =>
          simp only [runElements]
          cases h : e.submit v with
          | error msg => simp [failed, isErr, h]
          | ok evs => simp [failed, isErr, h, ih]

/-- The element loop never emits a `formSubmit` event. -/
theorem runElements_no_formSubmit (es : List Element) (vs : List JsonValue)
    (b : Bool) : Event.formSubmit b ∉ (runElements es vs).1 := by
  induction es generalizing vs with
  | nil => simp [runElements]
  | cons e es ih =>
      cases vs with
      | nil => simp [runElements]
      | cons v vs =>
          simp only [runElements]
          cases h : e.submit v with
          | error msg => simp
          | ok evs =>
              simp only [List.mem_append, not_or]
              exact ⟨element_ok_no_formSubmit e v evs b h, ih vs⟩

/-- When every element before position `i` accepts its value and the element
at `i` rejects its value, the element loop stops at `i`: it returns an error
and exactly the callback invocations of the elements before `i`. -/
theorem runElements_stops_at_error (pre : List Element)
    (vs1 : List JsonValue) (e : Element) (v : JsonValue)
    (post : List Element) (vs2 : List JsonValue)
    (hlen : pre.length = vs1.length)
    (hok : ∀ p ∈ pre.zip vs1, failed p.1 p.2 = false)
    (herr : failed e v = true) :
    (runElements (pre ++ e :: post) (vs1 ++ v :: vs2)).1 =
      ((pre.zip vs1).map (fun p => okEvents p.1 p.2)).flatten ∧
    (runElements (pre ++ e :: post) (vs1 ++ v :: vs2)).2.isSome = true := by
  induction pre generalizing vs1 with
  | nil =>
      cases vs1 with
      | cons w ws => simp at hlen
      | nil =>
          simp only [List.nil_append, runElements]
          cases h : e.submit v with
          | error msg => simp
          | ok evs => simp [failed, isErr, h] at herr
  | cons p pre ih =>
      cases vs1 with
      | nil => simp at hlen
      | cons w ws =>
          have hpw : failed p w = false := hok (p, w) (by simp)
          simp only [List.cons_append, runElements]
          cases h : p.submit w with
          | error msg => simp [failed, isErr, h] at hpw
          | ok evs =>
              have ih' := ih ws (by simpa using hlen)
                (fun q hq => hok q (by simp [hq]))
              have hoe : okEvents p w = evs := by simp [okEvents, h]
              simp [ih'.1, ih'.2, hoe]

/-- C5: during `Custom.SubmitJSON` on a response array of matching length,
the method returns an error exactly when some element rejects its value; the
form-level callback is invoked (`closed = false`, as the final event)
exactly when every element validated; and on the first failing element the
method stops: the emitted callback invocations are exactly those of the
elements before the failing one. -/
theorem Custom_SubmitJSON_shortcircuit (f : Custom) (xs : List JsonValue)
    (hlen : f.elements.length = xs.length) :
    ((f.SubmitJSON (some (.arr xs))).2 = none ↔
      ∀ p ∈ f.elements.zip xs, failed p.1 p.2 = false) ∧
    ((f.SubmitJSON (some (.arr xs))).2 = none → f.hasSubmit = true →
      (f.SubmitJSON (some (.arr xs))).1.getLast? =
        some (Event.formSubmit false)) ∧
    (∀ b, (f.SubmitJSON (some (.arr xs))).2.isSome = true →
      Event.formSubmit b ∉ (f.SubmitJSON (some (.arr xs))).1) ∧
    (∀ pre e post vs1 v vs2, f.elements = pre ++ e :: post →
      xs = vs1 ++ v :: vs2 → pre.length = vs1.length →
      (∀ p ∈ pre.zip vs1, failed p.1 p.2 = false) → failed e v = true →
      (f.SubmitJSON (some (.arr xs))).1 =
        ((pre.zip vs1).map (fun p => okEvents p.1 p.2)).flatten ∧
      (f.SubmitJSON (some (.arr xs))).2.isSome = true) := by
  have hne : ¬ f.elements.length ≠ xs.length := not_not.mpr hlen
  have key : f.SubmitJSON (some (.arr xs)) =
      match (runElements f.elements xs).2 with
      | some msg => ((runElements f.elements xs).1, some msg)
      | none =>
          ((runElements f.elements xs).1 ++
            (if f.hasSubmit then [Event.formSubmit false] else []), none) := by
    simp only [Custom.SubmitJSON, if_neg hne]
  refine ⟨?_, ?_, ?_, ?_⟩
  · rw [key]
    cases h2 : (runElements f.elements xs).2 with
    | none =>
        exact iff_of_true rfl ((runElements_error_iff _ _).mp h2)
    | some msg =>
        refine iff_of_false (by simp) ?_
        intro hall
        rw [(runElements_error_iff _ _).mpr hall] at h2
        cases h2
  · intro hnone hsub
    rw [key] at hnone ⊢
    cases h2 : (runElements f.elements xs).2 with
    | none =>
        simp only [h2, if_pos hsub]
        exact List.getLast?_concat _
    | some msg =>
        rw [h2] at hnone
        simp at hnone
  · intro b hsome
    rw [key] at hsome ⊢
    cases h2 : (runElements f.elements xs).2 with
    | none =>
        rw [h2] at hsome
        simp at hsome
    | some msg =>
        simp only [h2]
        exact runElements_no_formSubmit _ _ b
  · intro pre e post vs1 v vs2 hel hxs hplen hok herr
    have hstop := runElements_stops_at_error pre vs1 e v post vs2 hplen hok herr
    rw [← hel, ← hxs] at hstop
    obtain ⟨msg, hmsg⟩ := Option.isSome_iff_exists.mp hstop.2
    rw [key, hmsg]
    exact ⟨hstop.1, rfl⟩

/-- Witness for `Custom_SubmitJSON_shortcircuit`: a form whose second
element (a toggle) rejects a string value emits only the first element's
callback invocation, returns an error and never reaches the form
callback. -/
theorem Custom_SubmitJSON_shortcircuit_witness :
    (Custom.SubmitJSON
        ⟨"t", [.input ⟨"", "", "", true⟩, .toggle ⟨"", false, true⟩,
               .input ⟨"", "", "", true⟩], true⟩
        (some (.arr [.str "x", .str "y", .str "z"]))).1 =
      [Event.inputSubmit "x"] ∧
    (Custom.SubmitJSON
        ⟨"t", [.input ⟨"", "", "", true⟩, .toggle ⟨"", false, true⟩,
               .input ⟨"", "", "", true⟩], true⟩
        (some (.arr [.str "x", .str "y", .str "z"]))).2.isSome = true := by
  have h := (Custom_SubmitJSON_shortcircuit
      ⟨"t", [.input ⟨"", "", "", true⟩, .toggle ⟨"", false, true⟩,
             .input ⟨"", "", "", true⟩], true⟩
      [.str "x", .str "y", .str "z"] rfl).2.2.2
      [.input ⟨"", "", "", true⟩] (.toggle ⟨"", false, true⟩)
      [.input ⟨"", "", "", true⟩]
      [.str "x"] (.str "y") [.str "z"] rfl rfl rfl
      (by
        intro p hp
        simp at hp
        subst hp
        rfl)
      rfl
  refine ⟨?_, h.2⟩
  rw [h.1]
  rfl

end InlineForms
